import Mathlib

/-!
Verification development for the benchmark measurement & comparison engine
of the nyc-taxi-dwh-pipeline repository.

The embedded code lives in:
  * `src/pipeline/benchmarks.py`   (timing harness: `_pct`, `run_benchmarks`,
    metadata merge helpers `_load_meta` / `_write_meta`)
  * `src/pipeline/bench_compare.py` (run resolver `_resolve_compare_inputs`,
    `_latest_complete_run`, comparator `compare_latest_reports`)

Modelling conventions:
  * Python floats are modelled as `ℚ`.  Python's `round` (one-argument and
    two-argument form) is round-half-to-even; it is modelled exactly on `ℚ`
    (binary-float representation error is not modelled).
  * Python strings are modelled as Lean `String`; `str.strip` / `str.lower`
    are modelled over the character list (ASCII case mapping, the whitespace
    set of `Char.isWhitespace` — the inputs of interest are ASCII).
  * `pandas` sorts (`sort_values`, groupby key ordering, sorted index union
    of `pd.concat`) are determinized with `List.insertionSort`; every theorem
    below that depends on the sort uses only the multiset of rows or
    positions forced by strictly distinct keys.
  * Fallible code returns `Option` / `Except` over explicit error
    constructors, one per `raise` site.
-/

set_option allowUnsafeReducibility true in
attribute [semireducible] Rat.add Rat.sub Rat.mul Rat.div Rat.inv Rat.neg
  Rat.normalize Rat.maybeNormalize

/-- Strict lexicographic comparison of character lists by code point, as
Python compares `str` values. -/
def charListLt : List Char → List Char → Bool
  | [], [] => false
  | [], _ :: _ => true
  | _ :: _, [] => false
  | a :: as, b :: bs =>
    if a < b then true else if b < a then false else charListLt as bs

/-- Python's `<` on strings. -/
def pyStrLt (a b : String) : Bool := charListLt a.data b.data

/-- The non-strict order associated with `pyStrLt`; `sorted` in Python
arranges the result so consecutive elements satisfy it. -/
def pyStrLe (a b : String) : Prop := pyStrLt b a = false

instance : DecidableRel pyStrLe := fun a b => by
  unfold pyStrLe; infer_instance

/-- Sort a list of strings ascending, as Python `sorted` over strings. -/
def sortStr (l : List String) : List String := List.insertionSort pyStrLe l

/-- Model of Python `str.strip()` applied to a character list:
drop leading and trailing whitespace. -/
def stripChars (l : List Char) : List Char :=
  ((l.dropWhile Char.isWhitespace).reverse.dropWhile Char.isWhitespace).reverse

/-- Model of Python `str.strip()` (`phase.strip()`, `run_id.strip()`, ...). -/
def pyStrip (s : String) : String := ⟨stripChars s.data⟩

/-- Model of Python `str.lower()` (ASCII case mapping, as in the
phase strings this code applies it to). -/
def pyLower (s : String) : String := ⟨s.data.map Char.toLower⟩

/-- Model of Python's builtin `round(x)` on a real (here rational) value:
round half to even ("banker's rounding").  `Rat.floor` is used (rather than
the `⌊·⌋` notation) so the definition evaluates inside the kernel. -/
def pyRound (q : ℚ) : ℤ :=
  let f := q.floor
  if q - f < 1/2 then f
  else if 1/2 < q - f then f + 1
  else if f % 2 = 0 then f else f + 1

/-- Model of Python's two-argument `round(x, d)`: round half to even at
`d` decimal digits. -/
def pyRoundTo (d : ℕ) (q : ℚ) : ℚ :=
  (pyRound (q * (10 : ℚ) ^ d) : ℚ) / (10 : ℚ) ^ d

/-- Result of `_pct` (`benchmarks.py`): the Python function returns
`float("nan")` on an empty sample and raises `IndexError` when the computed
index falls outside the list (it cannot for `0 ≤ p ≤ 1`). -/
inductive PctRes where
  | val (q : ℚ)
  | nan
  | indexError
deriving DecidableEq

/-- Ascending sort of a rational sample, as Python `sorted(values)`. -/
def sortQ (l : List ℚ) : List ℚ := List.insertionSort (· ≤ ·) l

/-- Python list indexing `s[k]` for an integer index: negative indices count
from the end; an index out of range raises `IndexError`. -/
def pyIndex (s : List ℚ) (k : ℤ) : PctRes :=
  let n : ℤ := s.length
  let k2 := if k < 0 then k + n else k
  if 0 ≤ k2 ∧ k2 < n then .val (s.getD k2.toNat 0) else .indexError

/-- Embedding of `_pct` (`benchmarks.py` lines 102-107):
```
if not values: return float("nan")
s = sorted(values)
k = int(round((len(s) - 1) * p))
return s[k]
``` -/
def pct (values : List ℚ) (p : ℚ) : PctRes :=
  if values = [] then .nan
  else
    let s := sortQ values
    pyIndex s (pyRound ((((s.length : ℤ) - 1 : ℤ) : ℚ) * p))

/-- Nearest-rank percentile as the spec's glossary words it: "percentile
estimation selecting the sample element at index `round((n-1)*p)` from the
sorted sample" (with Python `round` semantics, which is what the code and
the spec's "this exact tie-break" sentence pin down). -/
def nearestRank (values : List ℚ) (p : ℚ) : ℚ :=
  let s := sortQ values
  s.getD (pyRound ((((s.length : ℤ) - 1 : ℤ) : ℚ) * p)).toNat 0

/-! ### Timing harness (`src/pipeline/benchmarks.py`) -/

/-- The fixed query catalog `QUERIES` of `benchmarks.py` (module-level dict,
iterated in insertion order). -/
def QUERIES : List (String × String) :=
  [ ("q1_top_pickup_zones_day",
      "select pu_location_id, count(*) as trips from clean.clean_yellow_trips where pickup_ts >= timestamp '2024-01-31 00:00:00' and pickup_ts < timestamp '2024-02-01 00:00:00' group by 1 order by trips desc limit 20"),
    ("q2_revenue_by_day",
      "select pickup_ts::date as trip_date, count(*) as trips, sum(total_amount) as revenue from clean.clean_yellow_trips group by 1 order by 1"),
    ("q2_mart_daily_revenue",
      "select trip_date, trips, revenue from marts.marts_daily_revenue order by 1"),
    ("q3_join_zone_lookup_top20",
      "select z.borough, z.zone, count(*) as trips, avg(t.total_amount) as avg_total from clean.clean_yellow_trips t join raw.taxi_zone_lookup z on z.locationid = t.pu_location_id group by 1, 2 order by trips desc limit 20"),
    ("q4_payment_type_stats",
      "select payment_type, count(*) as trips, avg(tip_amount) as avg_tip from clean.clean_yellow_trips group by 1 order by trips desc"),
    ("q5_hourly_peak",
      "select extract(hour from pickup_ts)::int as hr, count(*) as trips from clean.clean_yellow_trips group by 1 order by trips desc"),
    ("q5_mart_hourly_peak",
      "select hr, sum(trips) as trips from marts.marts_hourly_peak group by 1 order by trips desc") ]

/-- Phase validation of `run_benchmarks` (`benchmarks.py` lines 184-186):
`phase.strip().lower()` must be `"before"` or `"after"`, else
`ValueError` (modelled as `none`). -/
def normalizePhase (phase : String) : Option String :=
  let np := pyLower (pyStrip phase)
  if np = "before" ∨ np = "after" then some np else none

/-- Artifact directory used by both modules (`data/reports`). -/
def outDirS : String := "data/reports"

/-- Path `benchmarks_<run_id>_<phase>.csv` under `data/reports`. -/
def benchCsvName (rid np : String) : String :=
  outDirS ++ "/benchmarks_" ++ rid ++ "_" ++ np ++ ".csv"

/-- Path `benchmarks_<run_id>_<phase>.md` under `data/reports`. -/
def benchMdName (rid np : String) : String :=
  outDirS ++ "/benchmarks_" ++ rid ++ "_" ++ np ++ ".md"

/-- Path `bench_meta_<run_id>.json` under `data/reports`. -/
def benchMetaName (rid : String) : String :=
  outDirS ++ "/bench_meta_" ++ rid ++ ".json"

/-- The three artifact paths `run_benchmarks` writes for a validated phase
(`benchmarks.py` lines 195-197); `none` when the phase is rejected. -/
def runBenchArtifacts (rid phase : String) : Option (String × String × String) :=
  (normalizePhase phase).map fun np =>
    (benchCsvName rid np, benchMdName rid np, benchMetaName rid)

/-- One row of the raw measurement table
(columns `run_id, phase, query, iter, elapsed_ms`). -/
structure MRow where
  run_id : String
  phase : String
  query : String
  iter : ℕ
  elapsed_ms : ℚ
deriving DecidableEq

/-- One executed statement of the per-query benchmark loop: a warmup
execution (timing discarded) or a measured execution tagged with its 1-based
iteration counter and elapsed milliseconds. -/
inductive BenchEv where
  | warm (query : String)
  | meas (query : String) (iter : ℕ) (elapsedMs : ℚ)
deriving DecidableEq

/-- The executions `run_benchmarks` performs for one catalog query
(`benchmarks.py` lines 213-231): `warmup` warmup runs, then `iters` measured
runs with 1-based counter `i ∈ range(1, iters+1)`.  The wall-clock timing is
abstracted as a function `elapsed` from query name and iteration to
milliseconds. -/
def queryEvents (name : String) (iters warmup : ℕ)
    (elapsed : String → ℕ → ℚ) : List BenchEv :=
  (List.range warmup).map (fun _ => .warm name) ++
    (List.range iters).map (fun j => .meas name (j + 1) (elapsed name (j + 1)))

/-- All executions of one `run_benchmarks` call, in catalog order. -/
def benchEvents (catalog : List (String × String)) (iters warmup : ℕ)
    (elapsed : String → ℕ → ℚ) : List BenchEv :=
  catalog.flatMap fun qs => queryEvents qs.1 iters warmup elapsed

/-- The measurement row appended for an execution: only measured executions
append to `rows` (`benchmarks.py` lines 223-231), with `elapsed_ms`
rounded to 3 decimals. -/
def evRow (rid np : String) : BenchEv → Option MRow
  | .warm _ => none
  | .meas q i t => some ⟨rid, np, q, i, pyRoundTo 3 t⟩

/-- The full measurement table written to the raw CSV artifact by
`run_benchmarks` for a validated run/phase. -/
def benchRows (catalog : List (String × String)) (rid np : String)
    (iters warmup : ℕ) (elapsed : String → ℕ → ℚ) : List MRow :=
  (benchEvents catalog iters warmup elapsed).filterMap (evRow rid np)

/-- One `phases[phase]` entry of the metadata JSON
(`benchmarks.py` lines 282-290). -/
structure PhaseMeta where
  phase : String
  index_state : String
  created_at : String
  csv_file : String
  md_file : String
  iters : ℤ
  warmup : ℤ
deriving DecidableEq

/-- The metadata record `bench_meta_<run_id>.json`
(`benchmarks.py` lines 292-304).  `phases` is an insertion-ordered map,
as a Python dict. -/
structure RunMeta where
  run_id : String
  git_sha : Option String
  created_at : String
  last_updated_at : String
  phase : String
  index_state : String
  cmd_iters : ℤ
  cmd_warmup : ℤ
  requested_batches : List String
  discovered_raw : List String
  discovered_clean : List String
  row_counts : List (String × Option ℤ)
  phases : List (String × PhaseMeta)
deriving DecidableEq

/-- Python's `a or b` for an optional string `a` (`meta.get(...) or x`):
`None` and the empty string are falsy and fall through to `b`. -/
def pyOrStr (a : Option String) (b : String) : String :=
  match a with
  | none => b
  | some s => if s = "" then b else s

/-- Same, when the fallback is itself optional (`meta.get("git_sha") or git_sha`). -/
def pyOrOptStr (a : Option String) (b : Option String) : Option String :=
  match a with
  | none => b
  | some s => if s = "" then b else some s

/-- Python dict update `d[k] = v` on an insertion-ordered association list:
overwrite in place when the key exists, else append. -/
def dictSet (l : List (String × PhaseMeta)) (k : String) (v : PhaseMeta) :
    List (String × PhaseMeta) :=
  if l.any (fun p => p.1 = k) then
    l.map fun p => if p.1 = k then (k, v) else p
  else l ++ [(k, v)]

/-- The metadata payload `run_benchmarks` writes (`benchmarks.py` lines
276-305): load the previous record (`none` when the file is missing or
unreadable, per `_load_meta`), overwrite `phases[phase]`, keep `git_sha`
and `created_at` from the first write (Python `or`), always overwrite
`last_updated_at` and `phase`. -/
def mergeMeta (prev : Option RunMeta) (rid np created_at : String)
    (git : Option String) (iters warmup : ℤ)
    (reqBatches discRaw discClean : List String)
    (rowCounts : List (String × Option ℤ)) : RunMeta :=
  let prevPhases := match prev with
    | none => []
    | some m => m.phases
  let entry : PhaseMeta :=
    ⟨np, np, created_at, benchCsvName rid np, benchMdName rid np, iters, warmup⟩
  { run_id := rid
    git_sha := pyOrOptStr (prev.bind RunMeta.git_sha) git
    created_at := pyOrStr (prev.map RunMeta.created_at) created_at
    last_updated_at := created_at
    phase := np
    index_state := np
    cmd_iters := iters
    cmd_warmup := warmup
    requested_batches := reqBatches
    discovered_raw := discRaw
    discovered_clean := discClean
    row_counts := rowCounts
    phases := dictSet prevPhases np entry }

/-! ### Run resolver and comparator (`src/pipeline/bench_compare.py`) -/

/-- Character-level model of `str.startswith`. -/
def strStartsWith (s pre : String) : Bool := pre.data.isPrefixOf s.data

/-- Character-level model of `str.endswith`. -/
def strEndsWith (s suf : String) : Bool := suf.data.isSuffixOf s.data

/-- Drop the first `n` characters. -/
def strDrop (s : String) (n : ℕ) : String := ⟨s.data.drop n⟩

/-- Drop the last `n` characters. -/
def strDropRight (s : String) (n : ℕ) : String :=
  ⟨s.data.take (s.data.length - n)⟩

/-- Character length. -/
def strLen (s : String) : ℕ := s.data.length

/-- Embedding of `_parse_report_name` / `REPORT_RE`
(`bench_compare.py` lines 11-18): the regex
`^benchmarks_(?P<run_id>.+)_(?P<phase>before|after)\.csv$` with a greedy
run-id group, so the phase token is the last `_before`/`_after` before
`.csv` and the run-id is non-empty.  (The regex `.` does not match a
newline; filenames with embedded newlines are out of scope.) -/
def parseReportName (name : String) : Option (String × String) :=
  if strStartsWith name "benchmarks_" then
    let rest := strDrop name 11
    if strEndsWith rest "_before.csv" ∧ 11 < strLen rest then
      some (strDropRight rest 11, "before")
    else if strEndsWith rest "_after.csv" ∧ 10 < strLen rest then
      some (strDropRight rest 10, "after")
    else none
  else none

/-- Model of `Path(p).name`: the part after the last slash. -/
def pathName (p : String) : String :=
  ⟨(p.data.reverse.takeWhile fun c => c ≠ '/').reverse⟩

/-- Whether the artifact directory holds a grammar-matching file for this
run id and phase (the `runs` grouping of `_latest_complete_run`). -/
def hasPhaseFile (listing : List String) (rid ph : String) : Bool :=
  listing.any fun n => decide (parseReportName n = some (rid, ph))

/-- The sorted list of complete run-ids of `_latest_complete_run`
(`bench_compare.py` lines 21-29): run-ids parsed from grammar-matching
filenames that have both a before and an after file, sorted ascending. -/
def completeRunIds (listing : List String) : List String :=
  sortStr (((listing.filterMap fun n => (parseReportName n).map Prod.fst).dedup).filter
    fun rid => hasPhaseFile listing rid "before" && hasPhaseFile listing rid "after")

/-- Embedding of `_latest_complete_run` (`bench_compare.py` lines 21-34): the
lexicographically greatest complete run id (`sorted(...)[-1]`), or `none`
for the `FileNotFoundError` raised when no run id is complete. -/
def latestCompleteRun (listing : List String) : Option String :=
  (completeRunIds listing).getLast?

/-- A run id is *complete* in a directory listing when grammar-matching
files for both phases exist for it (the spec's "keeps only run-ids that
have both a before and an after file"). -/
def isCompleteRun (listing : List String) (rid : String) : Prop :=
  (∃ n ∈ listing, parseReportName n = some (rid, "before")) ∧
    (∃ n ∈ listing, parseReportName n = some (rid, "after"))

/-- One constructor per `raise` site of `_resolve_compare_inputs` and
`_latest_complete_run`, named after the spec's error taxonomy. -/
inductive ResolveErr where
  | notFound (path : String)
  | invalidFormat (name : String)
  | runIdMismatch
  | provideBothFiles
  | ambiguousRunId
  | noCompleteRun
deriving DecidableEq

instance {e a : Type} [DecidableEq e] [DecidableEq a] : DecidableEq (Except e a) :=
  fun x y =>
    match x, y with
    | .error u, .error v =>
      if h : u = v then .isTrue (by rw [h]) else .isFalse (by simp [h])
    | .error _, .ok _ => .isFalse (by simp)
    | .ok _, .error _ => .isFalse (by simp)
    | .ok u, .ok v =>
      if h : u = v then .isTrue (by rw [h]) else .isFalse (by simp [h])

/-- Embedding of `_resolve_compare_inputs` (`bench_compare.py` lines
37-109).  `listing` is the artifact-directory listing consulted by the
auto-discovery glob; `fsExists` is the file-existence predicate for
`Path.exists()`.  Branch order, strip-based truthiness tests, check order
inside each branch and the returned `matched_run_id` follow the source. -/
def resolveCompareInputs (listing : List String) (fsExists : String → Bool)
    (run_id before_file after_file : String) (allow_mismatched_runs : Bool) :
    Except ResolveErr (String × String × Option String) :=
  let rid := pyStrip run_id
  let bf := pyStrip before_file
  let af := pyStrip after_file
  if rid ≠ "" then
    let before := if bf ≠ "" then bf else benchCsvName rid "before"
    let after := if af ≠ "" then af else benchCsvName rid "after"
    if fsExists before = false then .error (.notFound before)
    else if fsExists after = false then .error (.notFound after)
    else
      let pb := parseReportName (pathName before)
      let pa := parseReportName (pathName after)
      if pb.map Prod.snd ≠ some "before" then .error (.invalidFormat (pathName before))
      else if pa.map Prod.snd ≠ some "after" then .error (.invalidFormat (pathName after))
      else if pb.map Prod.fst ≠ some rid ∨ pa.map Prod.fst ≠ some rid then
        .error .runIdMismatch
      else .ok (before, after, some rid)
  else if bf ≠ "" ∨ af ≠ "" then
    if bf = "" ∨ af = "" then .error .provideBothFiles
    else if fsExists bf = false then .error (.notFound bf)
    else if fsExists af = false then .error (.notFound af)
    else
      let pb := parseReportName (pathName bf)
      let pa := parseReportName (pathName af)
      if pb.map Prod.snd ≠ some "before" then .error (.invalidFormat (pathName bf))
      else if pa.map Prod.snd ≠ some "after" then .error (.invalidFormat (pathName af))
      else if allow_mismatched_runs = false ∧
          (pb.map Prod.fst = none ∨ pa.map Prod.fst = none) then .error .ambiguousRunId
      else if allow_mismatched_runs = false ∧ pb.map Prod.fst ≠ pa.map Prod.fst then
        .error .runIdMismatch
      else .ok (bf, af, if pb.map Prod.fst = pa.map Prod.fst then pb.map Prod.fst else none)
  else
    match latestCompleteRun listing with
    | none => .error .noCompleteRun
    | some rid2 => .ok (benchCsvName rid2 "before", benchCsvName rid2 "after", some rid2)

/-- Median of a non-empty numeric column, as pandas: middle element of the
sorted values for odd length, mean of the two middle elements for even
length.  (Groups produced by a groupby are never empty.) -/
def pandasMedian (l : List ℚ) : ℚ :=
  let s := sortQ l
  let n := s.length
  if n % 2 = 1 then s.getD (n / 2) 0
  else (s.getD (n / 2 - 1) 0 + s.getD (n / 2) 0) / 2

/-- The group keys of `df.groupby("query")`: distinct query names, sorted
ascending (`groupby` sorts its keys by default). -/
def queryKeys (rows : List MRow) : List String :=
  sortStr (rows.map MRow.query).dedup

/-- Median `elapsed_ms` of one query's rows
(`df.groupby("query")["elapsed_ms"].median()` at one key). -/
def medianOf (rows : List MRow) (k : String) : ℚ :=
  pandasMedian ((rows.filter fun r => decide (r.query = k)).map MRow.elapsed_ms)

/-- The per-query median series of one measurement table: sorted unique
keys paired with their medians. -/
def groupMedians (rows : List MRow) : List (String × ℚ) :=
  (queryKeys rows).map fun k => (k, medianOf rows k)

/-- Value of a series at a key, `none` when the key is absent. -/
def lookupVal (tbl : List (String × ℚ)) (k : String) : Option ℚ :=
  (tbl.find? fun p => decide (p.1 = k)).map Prod.snd

/-- A float-valued cell of the comparison frame: finite, `inf`/`-inf`
(division of a nonzero value by zero) or `NaN` (0/0, or any arithmetic
involving a missing side of the outer join). -/
inductive SVal where
  | fin (q : ℚ)
  | inf
  | neginf
  | nan
deriving DecidableEq

/-- Division `out["before_ms"] / out["after_ms"]` with pandas float semantics:
missing (NaN) operands propagate, division by zero gives a signed
infinity, `0/0` gives NaN. -/
def pdivS : Option ℚ → Option ℚ → SVal
  | some b, some a =>
    if a = 0 then
      if b = 0 then .nan else if 0 < b then .inf else .neginf
    else .fin (b / a)
  | _, _ => .nan

/-- Expression `(1 - after_ms / before_ms) * 100` with the same float semantics. -/
def imprS : Option ℚ → Option ℚ → SVal
  | some b, some a =>
    if b = 0 then
      if a = 0 then .nan else if 0 < a then .neginf else .inf
    else .fin ((1 - a / b) * 100)
  | _, _ => .nan

/-- Model of `Series.round(d)`: rounds finite values, leaves `inf`/`NaN` alone. -/
def roundS (d : ℕ) : SVal → SVal
  | .fin q => .fin (pyRoundTo d q)
  | v => v

/-- One output row of the comparison frame built by
`compare_latest_reports` (`bench_compare.py` lines 138-144). -/
structure CompRow where
  query : String
  before_ms : Option ℚ
  after_ms : Option ℚ
  speedup_x : SVal
  improvement_pct : SVal
deriving DecidableEq

/-- Key comparison of `sort_values("speedup_x", ascending=False)`:
descending on finite values, `inf` first, `-inf` after all finite values,
`NaN` always last (`na_position="last"`). -/
def svalDescB : SVal → SVal → Bool
  | .nan, .nan => true
  | .nan, _ => false
  | _, .nan => true
  | .inf, _ => true
  | _, .inf => false
  | .neginf, .neginf => true
  | .neginf, .fin _ => false
  | .fin _, .neginf => true
  | .fin a, .fin b => decide (b ≤ a)

/-- Row order of the sorted comparison frame. -/
def descRel (a b : CompRow) : Prop := svalDescB a.speedup_x b.speedup_x = true

instance : DecidableRel descRel := fun a b => by
  unfold descRel; infer_instance

/-- The comparison rows computed by `compare_latest_reports`
(`bench_compare.py` lines 135-144): per-query medians of each table,
aligned by `pd.concat([...], axis=1)` — an outer join on the two sorted
unique key sets, missing sides become NaN — then `speedup_x` and
`improvement_pct`, then `sort_values("speedup_x", ascending=False)`.
The pandas sort (numpy quicksort, tie order unspecified) is determinized
here as a stable insertion sort on the descending key order. -/
def compareRows (bRows aRows : List MRow) : List CompRow :=
  let b := groupMedians bRows
  let a := groupMedians aRows
  let keys := sortStr ((b.map Prod.fst ++ a.map Prod.fst).dedup)
  let joined := keys.map fun k =>
    let bm := lookupVal b k
    let am := lookupVal a k
    { query := k, before_ms := bm, after_ms := am,
      speedup_x := roundS 2 (pdivS bm am),
      improvement_pct := roundS 1 (imprS bm am) }
  List.insertionSort descRel joined

/-- The spec's Comparator example: before medians q1 ↦ 100, q2 ↦ 50. -/
def exBefore : List MRow :=
  [⟨"r", "before", "q1", 1, 100⟩, ⟨"r", "before", "q2", 1, 50⟩]

/-- The spec's Comparator example: after medians q1 ↦ 50, q2 ↦ 50. -/
def exAfter : List MRow :=
  [⟨"r", "after", "q1", 1, 50⟩, ⟨"r", "after", "q2", 1, 50⟩]

/-- A before table measuring only q1. -/
def cexBefore : List MRow := [⟨"r", "before", "q1", 1, 100⟩]

/-- An after table measuring q1 and q2: q2 is present on exactly one side. -/
def cexAfter : List MRow :=
  [⟨"r", "after", "q1", 1, 50⟩, ⟨"r", "after", "q2", 1, 60⟩]

/-- The spec's resolver-determinism example listing. -/
def exListing : List String :=
  ["benchmarks_r1_before.csv", "benchmarks_r1_after.csv",
   "benchmarks_r2_before.csv", "benchmarks_r2_after.csv"]

/-! ### Helper lemmas -/

theorem charListLt_irrefl : ∀ l : List Char, charListLt l l = false
  | [] => rfl
  | a :: as => by simp [charListLt, charListLt_irrefl as]

theorem charListLt_asymm : ∀ a b : List Char,
    charListLt a b = true → charListLt b a = false
  | [], [] => by simp [charListLt]
  | [], _ :: _ => by intro _; simp [charListLt]
  | _ :: _, [] => by intro h; simp [charListLt] at h
  | a :: as, b :: bs => by
    intro h
    simp only [charListLt] at h ⊢
    by_cases h1 : a < b
    · simp [h1, lt_asymm h1]
    · by_cases h2 : b < a
      · simp [h1, h2] at h
      · simp [h1, h2] at h ⊢
        exact charListLt_asymm as bs h

theorem charListLt_trans : ∀ a b c : List Char,
    charListLt a b = true → charListLt b c = true → charListLt a c = true
  | [], [], _ => by intro h; simp [charListLt] at h
  | [], _ :: _, [] => by intro _ h; simp [charListLt] at h
  | [], _ :: _, _ :: _ => by intro _ _; simp [charListLt]
  | _ :: _, [], _ => by intro h; simp [charListLt] at h
  | _ :: _, _ :: _, [] => by intro _ h; simp [charListLt] at h
  | a :: as, b :: bs, c :: cs => by
    intro h1 h2
    simp only [charListLt] at h1 h2 ⊢
    by_cases hab : a < b
    · by_cases hbc : b < c
      · simp [lt_trans hab hbc]
      · by_cases hcb : c < b
        · simp [hbc, hcb] at h2
        · have hbceq : b = c := le_antisymm (not_lt.mp hcb) (not_lt.mp hbc)
          subst hbceq
          simp [hab]
    · by_cases hba : b < a
      · simp [hab, hba] at h1
      · have habeq : a = b := le_antisymm (not_lt.mp hba) (not_lt.mp hab)
        subst habeq
        simp only [lt_irrefl, if_false, if_neg] at h1
        by_cases hac : a < c
        · simp [hac]
        · by_cases hca : c < a
          · simp [hac, hca] at h2
          · simp [hac, hca] at h2 ⊢
            exact charListLt_trans as bs cs h1 h2

theorem charListLt_connex : ∀ a b : List Char,
    charListLt a b = false → charListLt b a = false → a = b
  | [], [] => by intro _ _; rfl
  | [], _ :: _ => by intro h _; simp [charListLt] at h
  | _ :: _, [] => by intro _ h; simp [charListLt] at h
  | a :: as, b :: bs => by
    intro h1 h2
    simp only [charListLt] at h1 h2
    by_cases hab : a < b
    · simp [hab] at h1
    · by_cases hba : b < a
      · simp [hab, hba] at h2
      · have habeq : a = b := le_antisymm (not_lt.mp hba) (not_lt.mp hab)
        simp [hab, hba] at h1 h2
        rw [habeq, charListLt_connex as bs h1 h2]

instance : IsTotal String pyStrLe := by
  constructor
  intro a b
  unfold pyStrLe
  by_cases h : pyStrLt b a = false
  · exact Or.inl h
  · exact Or.inr (charListLt_asymm b.data a.data (by simpa [pyStrLt] using h))

instance : IsTrans String pyStrLe := by
  constructor
  intro a b c hab hbc
  unfold pyStrLe at *
  by_cases hca : pyStrLt c a = false
  · exact hca
  · exfalso
    have hca' : charListLt c.data a.data = true := by
      simpa [pyStrLt] using hca
    rcases Bool.eq_false_or_eq_true (charListLt a.data b.data) with hab2 | hab2
    · have := charListLt_trans c.data a.data b.data hca' hab2
      simp [pyStrLt, this] at hbc
    · have hdata : a.data = b.data :=
        charListLt_connex a.data b.data hab2 (by simpa [pyStrLt] using hab)
      rw [hdata] at hca'
      simp [pyStrLt, hca'] at hbc

theorem ratFloor_eq_intFloor (q : ℚ) : q.floor = ⌊q⌋ := by
  rw [Rat.floor_def, Rat.floor_def']

theorem pyRound_nonneg (q : ℚ) (h : 0 ≤ q) : 0 ≤ pyRound q := by
  have hf : 0 ≤ ⌊q⌋ := Int.floor_nonneg.mpr h
  simp only [pyRound, ratFloor_eq_intFloor]
  split_ifs <;> omega

theorem pyRound_le (q : ℚ) (m : ℤ) (h : q ≤ (m : ℚ)) : pyRound q ≤ m := by
  have hfle : ⌊q⌋ ≤ m := by
    have h2 := Int.floor_le_floor h
    simpa using h2
  simp only [pyRound, ratFloor_eq_intFloor]
  split_ifs with h1 h2 h3
  · exact hfle
  · have hlt : (⌊q⌋ : ℚ) < q := by linarith
    have : ⌊q⌋ < m := by exact_mod_cast lt_of_lt_of_le hlt h
    omega
  · exact hfle
  · have h1' : (1 : ℚ)/2 ≤ q - ⌊q⌋ := not_lt.mp h1
    have hlt : (⌊q⌋ : ℚ) < q := by linarith
    have : ⌊q⌋ < m := by exact_mod_cast lt_of_lt_of_le hlt h
    omega

/-! ### C1 -/

/-- C1: `_pct` computes nearest-rank percentiles over the sorted sample at
index `round((n-1)*p)` — but with Python's round-half-to-even,
`round(1.5) = 2`, so for the sample `[10,20,30,40]` p50 is the element at
index 2, i.e. **30** (not 20 as the spec's example says), and p95 is 40. -/
theorem c1_pct_nearest_rank (values : List ℚ) (p : ℚ) (hne : values ≠ [])
    (h0 : 0 ≤ p) (h1 : p ≤ 1) :
    pct values p = .val (nearestRank values p) ∧
      pct [10, 20, 30, 40] (1/2) = .val 30 ∧
      pct [10, 20, 30, 40] (19/20) = .val 40 := by
  refine ⟨?_, by decide, by decide⟩
  have hlen : (sortQ values).length = values.length := by
    simp [sortQ]
  have hpos : 1 ≤ values.length := by
    cases values with
    | nil => exact absurd rfl hne
    | cons a l => simp
  have hn1 : (1 : ℤ) ≤ ((sortQ values).length : ℤ) := by
    rw [hlen]; exact_mod_cast hpos
  have hz : (0 : ℤ) ≤ ((sortQ values).length : ℤ) - 1 := by omega
  have hnn : (0 : ℚ) ≤ ((((sortQ values).length : ℤ) - 1 : ℤ) : ℚ) := by
    exact_mod_cast hz
  have hk0 : 0 ≤ pyRound (((((sortQ values).length : ℤ) - 1 : ℤ) : ℚ) * p) :=
    pyRound_nonneg _ (mul_nonneg hnn h0)
  have hkn : pyRound (((((sortQ values).length : ℤ) - 1 : ℤ) : ℚ) * p) ≤
      ((sortQ values).length : ℤ) - 1 := by
    apply pyRound_le
    calc ((((sortQ values).length : ℤ) - 1 : ℤ) : ℚ) * p
        ≤ ((((sortQ values).length : ℤ) - 1 : ℤ) : ℚ) * 1 :=
          mul_le_mul_of_nonneg_left h1 hnn
      _ = ((((sortQ values).length : ℤ) - 1 : ℤ) : ℚ) := mul_one _
  simp only [pct, if_neg hne, pyIndex, nearestRank]
  rw [if_neg (not_lt.mpr hk0), if_pos ⟨hk0, by omega⟩]

/-- Witness for C1: the general statement applied to the spec's sample. -/
theorem c1_pct_nearest_rank_witness :
    pct [10, 20, 30, 40] (1/2) = .val (nearestRank [10, 20, 30, 40] (1/2)) ∧
      pct [10, 20, 30, 40] (1/2) = .val 30 ∧
      pct [10, 20, 30, 40] (19/20) = .val 40 :=
  c1_pct_nearest_rank [10, 20, 30, 40] (1/2) (by decide) (by decide) (by decide)

/-- Counterexample for C1 as stated: on `[10,20,30,40]` the code's p50 is
30 (`round(1.5) = 2` in Python, so index 2 of the sorted sample), not the
spec's claimed 20. -/
theorem c1_pct_spec_example_fails :
    pct [10, 20, 30, 40] (1/2) = .val 30 ∧
      pct [10, 20, 30, 40] (1/2) ≠ .val 20 := by
  decide

/-! ### C10 -/

/-- C10: `run_benchmarks` rejects a phase exactly when
`phase.strip().lower()` is neither `"before"` nor `"after"`; when accepted,
the trimmed lowercased value is what the artifact filenames and the
persisted metadata carry.  In particular `" BEFORE "` is accepted and
normalizes to `"before"`. -/
theorem mem_dictSet_key (l : List (String × PhaseMeta)) (k : String) (v : PhaseMeta) :
    k ∈ (dictSet l k v).map Prod.fst := by
  unfold dictSet
  by_cases h : l.any (fun p => p.1 = k) = true
  · rw [if_pos h, List.map_map]
    rcases List.any_eq_true.mp h with ⟨p, hp, hpk⟩
    exact List.mem_map.mpr ⟨p, hp, by simp [of_decide_eq_true hpk]⟩
  · rw [if_neg h]
    simp

theorem c10_phase_normalization (phase rid : String) :
    (normalizePhase phase = none ↔
        ¬(pyLower (pyStrip phase) = "before" ∨ pyLower (pyStrip phase) = "after")) ∧
      (∀ np, normalizePhase phase = some np →
        np = pyLower (pyStrip phase) ∧
          runBenchArtifacts rid phase =
            some (benchCsvName rid np, benchMdName rid np, benchMetaName rid) ∧
          ∀ prev created_at git iters warmup rb dr dc rc,
            (mergeMeta prev rid np created_at git iters warmup rb dr dc rc).phase = np ∧
              np ∈ (mergeMeta prev rid np created_at git iters warmup
                  rb dr dc rc).phases.map Prod.fst) ∧
      normalizePhase " BEFORE " = some "before" ∧
      normalizePhase "sideways" = none := by
  refine ⟨?_, ?_, by decide, by decide⟩
  · unfold normalizePhase
    by_cases h : pyLower (pyStrip phase) = "before" ∨ pyLower (pyStrip phase) = "after"
    · simp [h]
    · simp [h]
  · intro np hnp
    have hval : np = pyLower (pyStrip phase) := by
      unfold normalizePhase at hnp
      by_cases h : pyLower (pyStrip phase) = "before" ∨ pyLower (pyStrip phase) = "after"
      · rw [if_pos h] at hnp
        exact (Option.some_inj.mp hnp).symm
      · rw [if_neg h] at hnp
        exact absurd hnp (by simp)
    refine ⟨hval, ?_, ?_⟩
    · unfold runBenchArtifacts
      rw [hnp]
      rfl
    · intro prev created_at git iters warmup rb dr dc rc
      exact ⟨rfl, mem_dictSet_key _ np _⟩

/-- Witness for C10: `" BEFORE "` is accepted and the artifacts are named
with the normalized phase. -/
theorem c10_phase_normalization_witness :
    normalizePhase " BEFORE " = some "before" ∧
      runBenchArtifacts "r" " BEFORE " =
        some (benchCsvName "r" "before", benchMdName "r" "before", benchMetaName "r") := by
  have h := c10_phase_normalization " BEFORE " "r"
  exact ⟨h.2.2.1, ((h.2.1 "before" h.2.2.1).2.1)⟩

/-! ### C7 -/

/-- C7: writing RunMetadata for phase "before" and then for phase "after"
under the same run id yields a merged record holding both phase entries,
with `created_at` preserved from the first write (Python `x or y` keeps the
first value whenever it is non-empty). -/
theorem c7_meta_round_trip (rid t1 t2 : String) (g1 g2 : Option String)
    (i1 w1 i2 w2 : ℤ) (rb1 dr1 dc1 rb2 dr2 dc2 : List String)
    (rc1 rc2 : List (String × Option ℤ)) (ht1 : t1 ≠ "") :
    "before" ∈ (mergeMeta
        (some (mergeMeta none rid "before" t1 g1 i1 w1 rb1 dr1 dc1 rc1))
        rid "after" t2 g2 i2 w2 rb2 dr2 dc2 rc2).phases.map Prod.fst ∧
      "after" ∈ (mergeMeta
        (some (mergeMeta none rid "before" t1 g1 i1 w1 rb1 dr1 dc1 rc1))
        rid "after" t2 g2 i2 w2 rb2 dr2 dc2 rc2).phases.map Prod.fst ∧
      (mergeMeta
        (some (mergeMeta none rid "before" t1 g1 i1 w1 rb1 dr1 dc1 rc1))
        rid "after" t2 g2 i2 w2 rb2 dr2 dc2 rc2).created_at = t1 := by
  refine ⟨?_, ?_, ?_⟩ <;>
    simp [mergeMeta, dictSet, pyOrStr, ht1]

/-- Witness for C7 at a concrete run. -/
theorem c7_meta_round_trip_witness :
    "before" ∈ (mergeMeta
        (some (mergeMeta none "r" "before" "t1" none 7 1 [] [] [] []))
        "r" "after" "t2" none 7 1 [] [] [] []).phases.map Prod.fst ∧
      "after" ∈ (mergeMeta
        (some (mergeMeta none "r" "before" "t1" none 7 1 [] [] [] []))
        "r" "after" "t2" none 7 1 [] [] [] []).phases.map Prod.fst ∧
      (mergeMeta
        (some (mergeMeta none "r" "before" "t1" none 7 1 [] [] [] []))
        "r" "after" "t2" none 7 1 [] [] [] []).created_at = "t1" :=
  c7_meta_round_trip "r" "t1" "t2" none none 7 1 7 1 [] [] [] [] [] []
    [] [] (by decide)

/-! ### C6 -/

theorem filterMap_some_comp {α β : Type} (f : α → β) (l : List α) :
    l.filterMap (fun x => some (f x)) = l.map f := by
  induction l with
  | nil => rfl
  | cons a t ih => simp [List.filterMap_cons, ih]

theorem filterMap_none_comp {α β : Type} (l : List α) :
    l.filterMap (fun _ => (none : Option β)) = [] := by
  induction l with
  | nil => rfl
  | cons a t ih => simp [List.filterMap_cons, ih]

theorem filterMap_comp_meas (rid np qn : String) (t : ℕ → ℚ) (l : List ℕ) :
    l.filterMap (evRow rid np ∘ fun j => BenchEv.meas qn (j + 1) (t (j + 1))) =
      l.map (fun j => ⟨rid, np, qn, j + 1, pyRoundTo 3 (t (j + 1))⟩) := by
  induction l with
  | nil => rfl
  | cons a tl ih => simp [List.filterMap_cons, Function.comp, evRow, ih]

theorem benchRows_cons (c : String × String) (t : List (String × String))
    (rid np : String) (iters warmup : ℕ) (elapsed : String → ℕ → ℚ) :
    benchRows (c :: t) rid np iters warmup elapsed =
      (List.range iters).map
          (fun j => ⟨rid, np, c.1, j + 1, pyRoundTo 3 (elapsed c.1 (j + 1))⟩) ++
        benchRows t rid np iters warmup elapsed := by
  unfold benchRows benchEvents queryEvents
  simp only [List.flatMap_cons, List.filterMap_append, List.filterMap_map]
  rw [filterMap_comp_meas rid np c.1 (elapsed c.1) (List.range iters)]
  have hwarm : (List.range warmup).filterMap
      (evRow rid np ∘ fun _ => BenchEv.warm c.1) = [] := by
    induction List.range warmup with
    | nil => rfl
    | cons a tl ih => simp [List.filterMap_cons, Function.comp, evRow, ih]
  rw [hwarm]
  rfl

theorem benchRows_warmup_free (catalog : List (String × String))
    (rid np : String) (iters warmup : ℕ) (elapsed : String → ℕ → ℚ) :
    benchRows catalog rid np iters warmup elapsed =
      benchRows catalog rid np iters 0 elapsed := by
  induction catalog with
  | nil => rfl
  | cons c t ih => rw [benchRows_cons, benchRows_cons, ih]

theorem benchRows_filter_nil (catalog : List (String × String))
    (rid np : String) (iters warmup : ℕ) (elapsed : String → ℕ → ℚ)
    (q : String) (hq : q ∉ catalog.map Prod.fst) :
    (benchRows catalog rid np iters warmup elapsed).filter
      (fun r => decide (r.query = q)) = [] := by
  induction catalog with
  | nil => rfl
  | cons c t ih =>
    simp only [List.map_cons, List.mem_cons, not_or] at hq
    rw [benchRows_cons, List.filter_append, ih hq.2, List.filter_map]
    have : c.1 ≠ q := fun h => hq.1 h.symm
    simp [Function.comp, this]

theorem filter_query_true (rid np qn : String) (g : ℕ → ℚ) (l : List ℕ) :
    (l.map (fun j => (⟨rid, np, qn, j + 1, g j⟩ : MRow))).filter
        (fun r => decide (r.query = qn)) =
      l.map (fun j => (⟨rid, np, qn, j + 1, g j⟩ : MRow)) := by
  induction l with
  | nil => rfl
  | cons a tl ih => simp [List.filter_cons, ih]

theorem benchRows_filter_eq (catalog : List (String × String))
    (rid np : String) (iters warmup : ℕ) (elapsed : String → ℕ → ℚ)
    (q : String) (hnd : (catalog.map Prod.fst).Nodup)
    (hq : q ∈ catalog.map Prod.fst) :
    (benchRows catalog rid np iters warmup elapsed).filter
        (fun r => decide (r.query = q)) =
      (List.range iters).map
        (fun j => ⟨rid, np, q, j + 1, pyRoundTo 3 (elapsed q (j + 1))⟩) := by
  induction catalog with
  | nil => exact absurd hq (by simp)
  | cons c t ih =>
    rw [benchRows_cons, List.filter_append]
    simp only [List.map_cons, List.nodup_cons] at hnd
    rw [List.map_cons] at hq
    rcases List.mem_cons.mp hq with hqc | hqt
    · subst hqc
      rw [benchRows_filter_nil t rid np iters warmup elapsed c.1 hnd.1,
        filter_query_true rid np c.1
          (fun j => pyRoundTo 3 (elapsed c.1 (j + 1))) (List.range iters),
        List.append_nil]
    · have hne : c.1 ≠ q := fun h => hnd.1 (h ▸ hqt)
      rw [ih hnd.2 hqt, List.filter_map]
      simp [Function.comp, hne]

/-- C6: for every `iterations ≥ 0` and `warmup ≥ 0`, the raw measurement
table holds exactly `iterations` rows per catalog query — the rows for a
query are precisely those tagged with the 1-based counters `1..iterations`
— and the table is independent of `warmup` (warmup executions append no
row). -/
theorem c6_measurement_rows (iters warmup : ℕ) (elapsed : String → ℕ → ℚ)
    (rid np q : String) (hq : q ∈ QUERIES.map Prod.fst) :
    (benchRows QUERIES rid np iters warmup elapsed).filter
        (fun r => decide (r.query = q)) =
      (List.range iters).map
        (fun j => ⟨rid, np, q, j + 1, pyRoundTo 3 (elapsed q (j + 1))⟩) ∧
      ((benchRows QUERIES rid np iters warmup elapsed).filter
        (fun r => decide (r.query = q))).length = iters ∧
      benchRows QUERIES rid np iters warmup elapsed =
        benchRows QUERIES rid np iters 0 elapsed := by
  have hnd : (QUERIES.map Prod.fst).Nodup := by decide
  refine ⟨benchRows_filter_eq QUERIES rid np iters warmup elapsed q hnd hq, ?_,
    benchRows_warmup_free QUERIES rid np iters warmup elapsed⟩
  rw [benchRows_filter_eq QUERIES rid np iters warmup elapsed q hnd hq]
  simp

/-- Witness for C6 at a concrete invocation (2 iterations, 3 warmups). -/
theorem c6_measurement_rows_witness :
    (benchRows QUERIES "r" "before" 2 3 (fun _ _ => 5)).filter
        (fun r => decide (r.query = "q5_hourly_peak")) =
      (List.range 2).map
        (fun j => ⟨"r", "before", "q5_hourly_peak", j + 1, pyRoundTo 3 5⟩) ∧
      ((benchRows QUERIES "r" "before" 2 3 (fun _ _ => 5)).filter
        (fun r => decide (r.query = "q5_hourly_peak"))).length = 2 ∧
      benchRows QUERIES "r" "before" 2 3 (fun _ _ => 5) =
        benchRows QUERIES "r" "before" 2 0 (fun _ _ => 5) :=
  c6_measurement_rows 2 3 (fun _ _ => 5) "r" "before" "q5_hourly_peak" (by decide)

/-! ### C9 -/

/-- C9: with no run_id and exactly one of `before_file` / `after_file`
supplied, `_resolve_compare_inputs` raises the InvalidArgument error
("Provide both --before-file and --after-file").  The theorem quantifies
over every directory listing and existence predicate: the error does not
depend on any filesystem state, so it precedes any I/O. -/
theorem c9_one_sided_files (listing : List String) (fsExists : String → Bool)
    (run_id before_file after_file : String) (allow : Bool)
    (hrid : pyStrip run_id = "")
    (h : (pyStrip before_file ≠ "" ∧ pyStrip after_file = "") ∨
         (pyStrip before_file = "" ∧ pyStrip after_file ≠ "")) :
    resolveCompareInputs listing fsExists run_id before_file after_file allow =
      .error .provideBothFiles := by
  unfold resolveCompareInputs
  rcases h with ⟨hb, ha⟩ | ⟨hb, ha⟩ <;>
    simp [hrid, hb, ha]

/-- Witness for C9: `resolve(before_file="x_before.csv")` with no
`after_file`. -/
theorem c9_one_sided_files_witness :
    resolveCompareInputs [] (fun _ => true) "" "x_before.csv" "" false =
      .error .provideBothFiles :=
  c9_one_sided_files [] (fun _ => true) "" "x_before.csv" "" false
    (by decide) (Or.inl ⟨by decide, by decide⟩)

/-! ### C8 -/

/-- C8: in the explicit-run_id branch, once both resolved files exist and
carry the expected phase suffixes, a parsed run_id differing from the
requested one on either side raises the Mismatch error; in particular
`resolve(run_id="r1", before_file="benchmarks_r2_before.csv")` with both
resolved files existing fails that way. -/
theorem c8_run_id_mismatch (listing : List String) (fsExists : String → Bool)
    (run_id before_file after_file : String) (allow : Bool)
    (rb ra pbr par : String)
    (hrid : pyStrip run_id ≠ "")
    (hbdef : (if pyStrip before_file ≠ "" then pyStrip before_file
        else benchCsvName (pyStrip run_id) "before") = rb)
    (hadef : (if pyStrip after_file ≠ "" then pyStrip after_file
        else benchCsvName (pyStrip run_id) "after") = ra)
    (hbe : fsExists rb = true) (hae : fsExists ra = true)
    (hpb : parseReportName (pathName rb) = some (pbr, "before"))
    (hpa : parseReportName (pathName ra) = some (par, "after"))
    (hdiff : pbr ≠ pyStrip run_id ∨ par ≠ pyStrip run_id) :
    resolveCompareInputs listing fsExists run_id before_file after_file allow =
        .error .runIdMismatch ∧
      resolveCompareInputs []
        (fun p => decide (p = "benchmarks_r2_before.csv" ∨
          p = "data/reports/benchmarks_r1_after.csv"))
        "r1" "benchmarks_r2_before.csv" "" false = .error .runIdMismatch := by
  refine ⟨?_, by decide⟩
  unfold resolveCompareInputs
  rcases hdiff with hm | hm <;>
    simp [hrid, hbdef, hadef, hbe, hae, hpb, hpa, hm]

/-- Witness for C8 at the spec's concrete instance. -/
theorem c8_run_id_mismatch_witness :
    resolveCompareInputs []
        (fun p => decide (p = "benchmarks_r2_before.csv" ∨
          p = "data/reports/benchmarks_r1_after.csv"))
        "r1" "benchmarks_r2_before.csv" "" false = .error .runIdMismatch ∧
      resolveCompareInputs []
        (fun p => decide (p = "benchmarks_r2_before.csv" ∨
          p = "data/reports/benchmarks_r1_after.csv"))
        "r1" "benchmarks_r2_before.csv" "" false = .error .runIdMismatch :=
  c8_run_id_mismatch []
    (fun p => decide (p = "benchmarks_r2_before.csv" ∨
      p = "data/reports/benchmarks_r1_after.csv"))
    "r1" "benchmarks_r2_before.csv" "" false
    "benchmarks_r2_before.csv" "data/reports/benchmarks_r1_after.csv" "r2" "r1"
    (by decide) (by decide) (by decide) (by decide) (by decide)
    (by decide) (by decide) (Or.inl (by decide))

/-! ### C5 -/

theorem mem_of_getLast?_eq {α : Type} {l : List α} {m : α}
    (h : l.getLast? = some m) : m ∈ l := by
  rcases List.mem_getLast?_eq_getLast (show m ∈ l.getLast? from h) with ⟨hne, heq⟩
  rw [heq]
  exact List.getLast_mem hne

theorem sorted_getLast_max : ∀ (l : List String), l.Sorted pyStrLe →
    ∀ m, l.getLast? = some m → ∀ x ∈ l, pyStrLe x m
  | [] => by intro _ m hm; simp at hm
  | a :: t => by
    intro hs m hm x hx
    cases t with
    | nil =>
      simp at hm hx
      subst hm
      subst hx
      exact charListLt_irrefl x.data
    | cons b t2 =>
      rw [List.getLast?_cons_cons] at hm
      rcases List.mem_cons.mp hx with hxa | hxt
      · subst hxa
        exact List.rel_of_sorted_cons hs m (mem_of_getLast?_eq hm)
      · exact sorted_getLast_max (b :: t2) hs.of_cons m hm x hxt

theorem completeRunIds_sorted (listing : List String) :
    (completeRunIds listing).Sorted pyStrLe := by
  unfold completeRunIds sortStr
  exact List.sorted_insertionSort pyStrLe _

theorem mem_completeRunIds (listing : List String) (rid : String) :
    rid ∈ completeRunIds listing ↔ isCompleteRun listing rid := by
  unfold completeRunIds isCompleteRun hasPhaseFile sortStr
  rw [List.mem_insertionSort, List.mem_filter, List.mem_dedup]
  constructor
  · rintro ⟨hmem, hp⟩
    rw [Bool.and_eq_true] at hp
    constructor
    · rcases List.any_eq_true.mp hp.1 with ⟨n, hn, hd⟩
      exact ⟨n, hn, of_decide_eq_true hd⟩
    · rcases List.any_eq_true.mp hp.2 with ⟨n, hn, hd⟩
      exact ⟨n, hn, of_decide_eq_true hd⟩
  · rintro ⟨⟨n1, hn1, hp1⟩, ⟨n2, hn2, hp2⟩⟩
    refine ⟨?_, ?_⟩
    · exact List.mem_filterMap.mpr ⟨n1, hn1, by rw [hp1]; rfl⟩
    · rw [Bool.and_eq_true]
      exact ⟨List.any_eq_true.mpr ⟨n1, hn1, by simp [hp1]⟩,
        List.any_eq_true.mpr ⟨n2, hn2, by simp [hp2]⟩⟩

theorem resolve_auto_branch (listing : List String) (fsExists : String → Bool)
    (allow : Bool) :
    resolveCompareInputs listing fsExists "" "" "" allow =
      match latestCompleteRun listing with
      | none => .error .noCompleteRun
      | some rid2 =>
          .ok (benchCsvName rid2 "before", benchCsvName rid2 "after", some rid2) := by
  unfold resolveCompareInputs
  have h : pyStrip "" = "" := rfl
  simp [h]

/-- C5: with no run_id and no explicit files, auto-discovery groups the
grammar-matching filenames by run id, keeps only run ids with both phases,
fails NotFound when none is complete, and otherwise resolves the
lexicographically greatest complete run id to its derived artifact pair;
with complete pairs for r1 and r2 it selects r2. -/
theorem c5_auto_discovery (listing : List String) (fsExists : String → Bool)
    (allow : Bool) :
    ((¬ ∃ rid, isCompleteRun listing rid) →
        resolveCompareInputs listing fsExists "" "" "" allow =
          .error .noCompleteRun) ∧
      (∀ rid, latestCompleteRun listing = some rid →
        resolveCompareInputs listing fsExists "" "" "" allow =
            .ok (benchCsvName rid "before", benchCsvName rid "after", some rid) ∧
          isCompleteRun listing rid ∧
          ∀ r, isCompleteRun listing r → pyStrLe r rid) ∧
      resolveCompareInputs exListing fsExists "" "" "" allow =
        .ok (benchCsvName "r2" "before", benchCsvName "r2" "after", some "r2") := by
  refine ⟨?_, ?_, ?_⟩
  · intro hno
    rw [resolve_auto_branch]
    have hnil : completeRunIds listing = [] := by
      rw [List.eq_nil_iff_forall_not_mem]
      intro rid hmem
      exact hno ⟨rid, (mem_completeRunIds listing rid).mp hmem⟩
    unfold latestCompleteRun
    rw [hnil]
    rfl
  · intro rid hrid
    refine ⟨?_, ?_, ?_⟩
    · rw [resolve_auto_branch, hrid]
    · exact (mem_completeRunIds listing rid).mp
        (mem_of_getLast?_eq (l := completeRunIds listing) hrid)
    · intro r hr
      exact sorted_getLast_max (completeRunIds listing)
        (completeRunIds_sorted listing) rid hrid r
        ((mem_completeRunIds listing r).mpr hr)
  · rw [resolve_auto_branch]
    decide

/-- Witness for C5: the spec's r1/r2 listing selects r2, which is complete. -/
theorem c5_auto_discovery_witness :
    resolveCompareInputs exListing (fun _ => true) "" "" "" false =
        .ok (benchCsvName "r2" "before", benchCsvName "r2" "after", some "r2") ∧
      isCompleteRun exListing "r2" := by
  have h := (c5_auto_discovery exListing (fun _ => true) false).2.1 "r2" (by decide)
  exact ⟨h.1, h.2.1⟩

/-! ### Comparator lemmas, C2, C3 -/

theorem find?_map_pair (f : String → ℚ) (k : String) :
    ∀ ks : List String, k ∈ ks →
      ((ks.map fun x => (x, f x)).find? fun p => decide (p.1 = k)) = some (k, f k)
  | [], h => absurd h (by simp)
  | x :: t, h => by
    rw [List.map_cons, List.find?_cons]
    by_cases hx : x = k
    · subst hx
      simp
    · have hk : k ∈ t := by
        rcases List.mem_cons.mp h with h1 | h1
        · exact absurd h1.symm hx
        · exact h1
      simp only [decide_eq_false hx]
      exact find?_map_pair f k t hk

theorem find?_map_pair_none (f : String → ℚ) (k : String) :
    ∀ ks : List String, k ∉ ks →
      ((ks.map fun x => (x, f x)).find? fun p => decide (p.1 = k)) = none
  | [], _ => rfl
  | x :: t, h => by
    rw [List.map_cons, List.find?_cons]
    have hx : x ≠ k := fun he => h (by rw [he]; exact List.mem_cons_self k t)
    simp only [decide_eq_false hx]
    exact find?_map_pair_none f k t (fun ht => h (List.mem_cons_of_mem x ht))

theorem lookupVal_groupMedians (rows : List MRow) (k : String)
    (hk : k ∈ queryKeys rows) :
    lookupVal (groupMedians rows) k = some (medianOf rows k) := by
  unfold lookupVal groupMedians
  rw [find?_map_pair (medianOf rows) k (queryKeys rows) hk]
  rfl

theorem lookupVal_groupMedians_none (rows : List MRow) (k : String)
    (hk : k ∉ queryKeys rows) :
    lookupVal (groupMedians rows) k = none := by
  unfold lookupVal groupMedians
  rw [find?_map_pair_none (medianOf rows) k (queryKeys rows) hk]
  rfl

theorem groupMedians_keys (rows : List MRow) :
    (groupMedians rows).map Prod.fst = queryKeys rows := by
  unfold groupMedians
  rw [List.map_map]
  have hid : (Prod.fst ∘ fun k => (k, medianOf rows k)) = id := by
    funext x
    rfl
  rw [hid, List.map_id]

theorem pdivS_none_right : ∀ x : Option ℚ, pdivS x none = .nan := by
  intro x
  cases x <;> rfl

theorem imprS_none_right : ∀ x : Option ℚ, imprS x none = .nan := by
  intro x
  cases x <;> rfl

theorem mem_compareRows (bRows aRows : List MRow) (k : String)
    (hk : k ∈ queryKeys bRows ∨ k ∈ queryKeys aRows) :
    (⟨k, lookupVal (groupMedians bRows) k, lookupVal (groupMedians aRows) k,
        roundS 2 (pdivS (lookupVal (groupMedians bRows) k)
          (lookupVal (groupMedians aRows) k)),
        roundS 1 (imprS (lookupVal (groupMedians bRows) k)
          (lookupVal (groupMedians aRows) k))⟩ : CompRow) ∈
      compareRows bRows aRows := by
  unfold compareRows
  rw [List.mem_insertionSort]
  refine List.mem_map.mpr ⟨k, ?_, rfl⟩
  unfold sortStr
  rw [List.mem_insertionSort, List.mem_dedup, List.mem_append,
    groupMedians_keys, groupMedians_keys]
  exact hk

/-- C2 (amended): `pd.concat([b, a], axis=1)` aligns the two median series
with an **outer** join, so a query present in exactly one table still
yields an output row, with the missing side's median absent (NaN) and NaN
speedup/improvement. -/
theorem c2_outer_join (bRows aRows : List MRow) (k : String)
    (h : (k ∈ queryKeys bRows ∧ k ∉ queryKeys aRows) ∨
         (k ∉ queryKeys bRows ∧ k ∈ queryKeys aRows)) :
    ∃ r ∈ compareRows bRows aRows, r.query = k ∧
      (r.before_ms = none ∨ r.after_ms = none) ∧ r.speedup_x = .nan := by
  rcases h with ⟨hin, hout⟩ | ⟨hout, hin⟩
  · refine ⟨_, mem_compareRows bRows aRows k (Or.inl hin), rfl, ?_, ?_⟩
    · right
      exact lookupVal_groupMedians_none aRows k hout
    · rw [lookupVal_groupMedians_none aRows k hout, pdivS_none_right]
      rfl
  · refine ⟨_, mem_compareRows bRows aRows k (Or.inr hin), rfl, ?_, ?_⟩
    · left
      exact lookupVal_groupMedians_none bRows k hout
    · rw [lookupVal_groupMedians_none bRows k hout]
      rfl

/-- Witness for C2's amended statement: q2 is measured only in the after
table yet appears in the output with a NaN before-median. -/
theorem c2_outer_join_witness :
    ∃ r ∈ compareRows cexBefore cexAfter, r.query = "q2" ∧
      (r.before_ms = none ∨ r.after_ms = none) ∧ r.speedup_x = .nan :=
  c2_outer_join cexBefore cexAfter "q2" (Or.inr ⟨by decide, by decide⟩)

/-- Counterexample for C2 as stated: with before table {q1} and after table
{q1, q2}, q2 is present in exactly one input, yet the comparison output
contains a row for it (the claim says no such row appears). -/
theorem c2_inner_join_fails :
    compareRows cexBefore cexAfter =
      [⟨"q1", some 100, some 50, .fin 2, .fin 50⟩,
       ⟨"q2", none, some 60, .nan, .nan⟩] ∧
      ((compareRows cexBefore cexAfter).filter fun r => decide (r.query = "q2")) ≠
        [] := by
  decide

/-- C3: for a query present in both tables the emitted row carries the two
medians, `speedup_x = round(before/after, 2)` and
`improvement_pct = round((1 - after/before) * 100, 1)`; on the spec's
(1.00x, 0.0%), q1 first. -/
theorem c3_speedup_formula (bRows aRows : List MRow) (k : String)
    (hb : k ∈ queryKeys bRows) (ha : k ∈ queryKeys aRows) :
    (∃ r ∈ compareRows bRows aRows, r.query = k ∧
        r.before_ms = some (medianOf bRows k) ∧
        r.after_ms = some (medianOf aRows k) ∧
        (medianOf aRows k ≠ 0 →
          r.speedup_x = .fin (pyRoundTo 2 (medianOf bRows k / medianOf aRows k))) ∧
        (medianOf bRows k ≠ 0 →
          r.improvement_pct =
            .fin (pyRoundTo 1 ((1 - medianOf aRows k / medianOf bRows k) * 100)))) ∧
      compareRows exBefore exAfter =
        [⟨"q1", some 100, some 50, .fin 2, .fin 50⟩,
         ⟨"q2", some 50, some 50, .fin 1, .fin 0⟩] := by
  refine ⟨?_, by decide⟩
  refine ⟨_, mem_compareRows bRows aRows k (Or.inl hb), rfl,
    lookupVal_groupMedians bRows k hb, lookupVal_groupMedians aRows k ha, ?_, ?_⟩
  · intro hnz
    rw [lookupVal_groupMedians bRows k hb, lookupVal_groupMedians aRows k ha]
    simp [pdivS, roundS, hnz]
  · intro hnz
    rw [lookupVal_groupMedians bRows k hb, lookupVal_groupMedians aRows k ha]
    simp [imprS, roundS, hnz]

/-- Witness for C3: the spec's example tables at query q1. -/
theorem c3_speedup_formula_witness :
    (∃ r ∈ compareRows exBefore exAfter, r.query = "q1" ∧
        r.before_ms = some (medianOf exBefore "q1") ∧
        r.after_ms = some (medianOf exAfter "q1") ∧
        (medianOf exAfter "q1" ≠ 0 →
          r.speedup_x =
            .fin (pyRoundTo 2 (medianOf exBefore "q1" / medianOf exAfter "q1"))) ∧
        (medianOf exBefore "q1" ≠ 0 →
          r.improvement_pct = .fin (pyRoundTo 1
            ((1 - medianOf exAfter "q1" / medianOf exBefore "q1") * 100)))) ∧
      compareRows exBefore exAfter =
        [⟨"q1", some 100, some 50, .fin 2, .fin 50⟩,
         ⟨"q2", some 50, some 50, .fin 1, .fin 0⟩] :=
  c3_speedup_formula exBefore exAfter "q1" (by decide) (by decide)
